import Mathlib

/-!
# Verification of `geotrace/lbs`

A shallow embedding, in Lean 4, of the `lbs` Go library (resolution engine:
`GetCells`, `Get`, `Records` in the library source) and of the `lbs-import`
ingestion pipeline (`main` in `doc.go`), together with proofs of the
specification's testable properties.

Float64 arithmetic of the source is modelled over `ℝ` (exact real
arithmetic); `math.Sin`, `math.Cos`, `math.Asin`, `math.Sqrt`, `math.Pi`
become `Real.sin`, `Real.cos`, `Real.arcsin`, `Real.sqrt`, `Real.pi`.
Go's index-out-of-range runtime panic is modelled as a distinguished
error value, and the MongoDB collection is modelled as a list of
key/value documents together with an optional failure state that makes
every query against it fail (a store-access error).
-/

namespace Lbs

/-- The process-wide default radio type (`DefaultRadioType = "gsm"`). -/
def DefaultRadioType : String := "gsm"

/-- Model of `geo.Point`: a geographic point with longitude and latitude
(the source's `geo.NewPoint(lon, lat)` with accessors `Longitude()`,
`Latitude()`). -/
structure Point where
  lon : ℝ
  lat : ℝ

/-- `Key` from the library source: the composite identifier of a cell
tower (radio technology, mobile country code, mobile network code,
location area code, cell id).  The `uint16`/`uint32` fields are modelled
as `Nat`; no arithmetic is performed on them, only equality tests. -/
structure Key where
  RadioType : String
  MobileCountryCode : Nat
  MobileNetworkCode : Nat
  LocationAreaCode : Nat
  CellId : Nat
deriving DecidableEq

/-- `Data` from the library source: the value stored for a tower — its
geographic point and its accuracy radius in meters. -/
structure Data where
  Location : Point
  Accuracy : ℝ

/-- A single observed tower of a `locator.Request` (`locator.CellTower`):
country code, network code, area code, cell id and a signal strength
that the averaging algorithm never reads. -/
structure CellTower where
  MobileCountryCode : Nat
  MobileNetworkCode : Nat
  LocationAreaCode : Nat
  CellId : Nat
  SignalStrength : Int

/-- A wifi access point observed in a request.  The library only ever
takes the length of the wifi list, so the payload is irrelevant. -/
structure WifiAccessPoint where
  macAddress : String

/-- Model of `locator.Request`: the geolocation request. -/
structure Request where
  RadioType : String
  HomeMobileCountryCode : Nat
  HomeMobileNetworkCode : Nat
  CellTowers : List CellTower
  WifiAccessPoints : List WifiAccessPoint

/-- Model of `locator.Response`: estimated point and accuracy radius. -/
structure Response where
  Lat : ℝ
  Lng : ℝ
  Accuracy : ℝ

/-- The errors a resolution call can end with.  `emptyRequest` and
`notFound` model the source's `ErrEmptyRequest` and `ErrNotFound`
(`ErrNotFound` is declared by the source but never returned);
`indexOutOfRange` models the Go runtime panic raised by an
out-of-bounds slice access; `storeError e` carries a MongoDB error
`e` unmodified. -/
inductive LbsError where
  | emptyRequest
  | notFound
  | indexOutOfRange
  | storeError (e : String)
deriving DecidableEq

/-- Model of the MongoDB collection holding the LBS data: a list of
documents, each a `Key` (the unique composite index) with its `Data`,
plus an optional failure state — when `failure = some e`, every query
against the store fails with the error `e`. -/
structure Store where
  docs : List (Key × Data)
  failure : Option String

/-- `coll.Find(search).Select(selector).All(&cells)`: return the data of
every document whose key satisfies the search predicate, in store
order, or the store's error if the store is failing. -/
def Store.find (s : Store) (pred : Key → Bool) : Except String (List Data) :=
  match s.failure with
  | some e => .error e
  | none => .ok ((s.docs.filter (fun kd => pred kd.1)).map (fun kd => kd.2))

/-- `coll.Count()`: the number of documents, or the store's error. -/
def Store.count (s : Store) : Except String Nat :=
  match s.failure with
  | some e => .error e
  | none => .ok s.docs.length

/-- The search predicate `GetCells` builds: radio type, mcc and mnc must
match exactly, and the `$or` clause requires (lac, cell) to match at
least one observed tower of the request. -/
def matchPred (radio : String) (mcc mnc : Nat) (towers : List CellTower)
    (k : Key) : Bool :=
  k.RadioType == radio && k.MobileCountryCode == mcc &&
    k.MobileNetworkCode == mnc &&
    towers.any (fun t =>
      k.LocationAreaCode == t.LocationAreaCode && k.CellId == t.CellId)

/-- `GetCells` from the library source.  Returns the result of the call
paired with the number of store queries performed.  The empty-request
guard tests both tower lists; the effective radio type falls back to
`DefaultRadioType`, and zero home country/network codes fall back to
the corresponding field of `CellTowers[0]` — an access that panics
(`indexOutOfRange`) when the cell-tower list is empty. -/
def GetCells (db : Store) (req : Request) :
    Except LbsError (List Data) × Nat :=
  if req.CellTowers.length == 0 && req.WifiAccessPoints.length == 0 then
    (.error .emptyRequest, 0)
  else
    let radio := if req.RadioType == "" then DefaultRadioType else req.RadioType
    match (if req.HomeMobileCountryCode == 0 then
        (req.CellTowers.head?).map (fun t => t.MobileCountryCode)
      else some req.HomeMobileCountryCode) with
    | none => (.error .indexOutOfRange, 0)
    | some mcc =>
      match (if req.HomeMobileNetworkCode == 0 then
          (req.CellTowers.head?).map (fun t => t.MobileNetworkCode)
        else some req.HomeMobileNetworkCode) with
      | none => (.error .indexOutOfRange, 0)
      | some mnc =>
        match db.find (matchPred radio mcc mnc req.CellTowers) with
        | .error e => (.error (.storeError e), 1)
        | .ok cells => (.ok cells, 1)

/-- The sphere radius used by the accuracy computation
(`const EARTH_RADIUS = 6378137.0`). -/
def EARTH_RADIUS : ℝ := 6378137.0

/-- One iteration of `Get`'s accuracy loop: the haversine great-circle
distance between `cell`'s point and the mean point `(lon, lat)`, plus
the cell's own stored accuracy:
`a = sin²(dLat) + cos(lat1)·cos(lat2)·sin²(dLon)`,
`c = asin(min(1, √a))`, `dist = 2·R·c + cell.Accuracy`. -/
noncomputable def distPlus (lon lat : ℝ) (cell : Data) : ℝ :=
  let lat2 := cell.Location.lat
  let lon2 := cell.Location.lon
  let dLat := Real.pi / 180.0 * (lat2 - lat) / 2.0
  let dLon := Real.pi / 180.0 * (lon2 - lon) / 2.0
  let lat1 := Real.pi / 180.0 * lat
  let lat2r := Real.pi / 180.0 * lat2
  let a := Real.sin dLat ^ 2 + Real.cos lat1 * Real.cos lat2r * Real.sin dLon ^ 2
  let c := Real.arcsin (min 1 (Real.sqrt a))
  2 * EARTH_RADIUS * c + cell.Accuracy

/-- `Get`'s accuracy loop: fold over the matched cells, keeping the
largest `dist` seen so far, starting from `0`. -/
noncomputable def accuracyLoop (lon lat : ℝ) : List Data → ℝ → ℝ
  | [], acc => acc
  | cell :: rest, acc =>
      accuracyLoop lon lat rest
        (if distPlus lon lat cell > acc then distPlus lon lat cell else acc)

/-- `Get` from the library source (the spec's `Resolve`): call
`GetCells`, propagate its error; otherwise average the matched points
(dividing by the match count, without a zero guard) and compute the
accuracy radius with the haversine loop.  Returns the result paired
with the number of store queries performed. -/
noncomputable def Get (db : Store) (req : Request) :
    Except LbsError Response × Nat :=
  match GetCells db req with
  | (.error e, n) => (.error e, n)
  | (.ok cells, n) =>
    let lonSum := (cells.map (fun c => c.Location.lon)).sum
    let latSum := (cells.map (fun c => c.Location.lat)).sum
    let count : ℝ := (cells.length : ℝ)
    let lon := lonSum / count
    let lat := latSum / count
    let accuracy := accuracyLoop lon lat cells 0
    (.ok { Lat := lat, Lng := lon, Accuracy := accuracy }, n)

/-- `Records` from the library source: `total, _ := coll.Count()` — the
count query's error is discarded; on failure the returned count is the
zero value. -/
def Records (db : Store) : Nat :=
  match db.count with
  | .error _ => 0
  | .ok n => n

/-! ## Ingestion pipeline (`lbs-import`, `doc.go`)

One CSV row of the dataset.  Record parsing from the delimited text
format into typed fields is an external collaborator (a thin decoding
wrapper around `strconv`), so each numeric field is modelled as the
outcome of its parse: `none` when `strconv` failed on that field of the
raw record, `some v` otherwise.  `radio` is the raw `record[0]` string.
-/
structure Row where
  radio : String
  mcc : Option Nat
  mnc : Option Nat
  area : Option Nat
  cell : Option Nat
  lon : Option ℝ
  lat : Option ℝ
  range : Option ℝ
  samples : Option Int

/-- Whether a character list starts with a given pattern. -/
def startsWithChars : List Char → List Char → Bool
  | _, [] => true
  | [], _ :: _ => false
  | c :: cs, p :: ps => c == p && startsWithChars cs ps

/-- Whether a character list has a given pattern as a contiguous
sublist. -/
def hasSubstrChars : List Char → List Char → Bool
  | [], p => p.isEmpty
  | c :: cs, p => startsWithChars (c :: cs) p || hasSubstrChars cs p

/-- Model of Go's `strings.ToLower` on the row's radio field. -/
def toLowerStr (s : String) : String := ⟨s.data.map Char.toLower⟩

/-- The import run's options: the radio allow-set, the country allow-set
and the minimum sample count (`-radio`, `-country`, `-minsample`). -/
structure ImportOpts where
  filterRadio : List String
  filterCountry : List Nat
  minSamples : Int

/-- The body of the reading loop of `lbs-import` for one data row, in
source order: lowercase the radio type, apply the radio filter, parse
samples, apply the minimum-samples filter, parse mcc, apply the country
filter, parse mnc, area, cell, longitude, latitude and range; any parse
failure or filter rejection skips the row (`none`), otherwise the row is
staged as an upsert of its `Key` and `Data` (`some`). -/
def processRow (opts : ImportOpts) (row : Row) : Option (Key × Data) :=
  let radio := toLowerStr row.radio
  if opts.filterRadio.length > 0 && !(opts.filterRadio.contains radio) then
    none
  else match row.samples with
  | none => none
  | some samples =>
    if samples < opts.minSamples then none
    else match row.mcc with
    | none => none
    | some mcc =>
      if opts.filterCountry.length > 0 && !(opts.filterCountry.contains mcc) then
        none
      else match row.mnc, row.area, row.cell, row.lon, row.lat, row.range with
      | some mnc, some area, some cell, some lon, some lat, some range =>
          some (⟨radio, mcc, mnc, area, cell⟩,
            { Location := ⟨lon, lat⟩, Accuracy := range })
      | _, _, _, _, _, _ => none

/-- The staged upserts of a run: the first row of the dataset is the
header (always skipped), and every following row is either staged by
`processRow` or skipped. -/
def stagedOps (opts : ImportOpts) (rows : List Row) : List (Key × Data) :=
  (rows.drop 1).filterMap (processRow opts)

/-- `bulk.Upsert(key, bson.M{"$set": data})` applied to the store: if a
document with the key exists, its data is replaced, else the document
is inserted. -/
def upsert (store : List (Key × Data)) (k : Key) (d : Data) :
    List (Key × Data) :=
  if store.any (fun kd => kd.1 == k) then
    store.map (fun kd => if kd.1 == k then (kd.1, d) else kd)
  else store ++ [(k, d)]

/-- `bulk.Run()`: apply every staged upsert to the store. -/
def applyUpserts (store : List (Key × Data)) (ops : List (Key × Data)) :
    List (Key × Data) :=
  ops.foldl (fun s op => upsert s op.1 op.2) store

/-- A store mutation the import run can execute: the full-mode
`coll.RemoveAll(nil)` or the `bulk.Run()` of the staged upserts. -/
inductive Mutation where
  | removeAll
  | bulkRun (ops : List (Key × Data))

/-- `strings.Contains(filename, "diff")`: the marker selecting
incremental mode. -/
def containsDiff (filename : String) : Bool :=
  hasSubstrChars filename.data "diff".data

/-- The import run of `lbs-import` (`main` in `doc.go`) over the store
contents: stage the accepted rows; if zero rows were accepted, return
with no mutation; otherwise, in non-incremental mode first remove all
existing documents, then in either mode run the staged bulk upserts.
Returns the final store contents together with the list of store
mutations executed, in order. -/
def runImport (opts : ImportOpts) (filename : String) (rows : List Row)
    (store : List (Key × Data)) : List (Key × Data) × List Mutation :=
  let staged := stagedOps opts rows
  if staged.length == 0 then (store, [])
  else if containsDiff filename then
    (applyUpserts store staged, [.bulkRun staged])
  else
    (applyUpserts [] staged, [.removeAll, .bulkRun staged])

/-! ## Concrete inputs used by the witnesses and counterexamples -/

/-- A store with no documents and no failure. -/
def emptyStore : Store := ⟨[], none⟩

/-- A request naming zero observed towers of any kind. -/
def emptyReq : Request := ⟨"", 0, 0, [], []⟩

/-- A request with an empty cell-tower list, one wifi access point, and
home mobile country code `0`. -/
def wifiOnlyReq : Request := ⟨"", 0, 0, [], [⟨"00:11:22:33:44:55"⟩]⟩

/-- A request naming one tower, with explicit home country/network
codes that match no stored record of `emptyStore`. -/
def oneTowerReq : Request := ⟨"", 5, 5, [⟨250, 2, 7743, 22517, -78⟩], []⟩

/-- A store whose every query fails. -/
def failingStore : Store := ⟨[], some "connection reset"⟩

/-- The round-trip record of the specification: radio `gsm`, mcc 250,
mnc 2, lac 7743, cell 22517. -/
def rtKey : Key := ⟨"gsm", 250, 2, 7743, 22517⟩

/-- The round-trip record's data: point (37.6, 55.7), accuracy 50. -/
def rtData : Data := ⟨⟨37.6, 55.7⟩, 50⟩

/-- A store holding exactly the round-trip record. -/
def rtStore : Store := ⟨[(rtKey, rtData)], none⟩

/-- A request matching exactly the round-trip record. -/
def rtReq : Request := ⟨"", 250, 2, [⟨250, 2, 7743, 22517, -78⟩], []⟩

/-- Tower in country 250, area 1, cell 1. -/
def towerA : CellTower := ⟨250, 2, 1, 1, -50⟩

/-- Tower in country 255, area 2, cell 2. -/
def towerB : CellTower := ⟨255, 2, 2, 2, -60⟩

/-- Stored key matching `towerA` (for country 250). -/
def keyA : Key := ⟨"gsm", 250, 2, 1, 1⟩

/-- Stored key matching `towerB` (for country 255). -/
def keyB : Key := ⟨"gsm", 255, 2, 2, 2⟩

/-- Record at point (10, 10) with accuracy 5. -/
def dataA : Data := ⟨⟨10, 10⟩, 5⟩

/-- Record at point (20, 20) with accuracy 7. -/
def dataB : Data := ⟨⟨20, 20⟩, 7⟩

/-- A store holding the records for both countries. -/
def permStore : Store := ⟨[(keyA, dataA), (keyB, dataB)], none⟩

/-- A request with home country code `0` listing `towerA` first. -/
def permReq1 : Request := ⟨"gsm", 0, 2, [towerA, towerB], []⟩

/-- The same request with its two towers swapped. -/
def permReq2 : Request := ⟨"gsm", 0, 2, [towerB, towerA], []⟩

/-- A two-tower request with explicit (non-zero) home country and
network codes. -/
def permReq3 : Request := ⟨"gsm", 250, 2, [towerA, towerB], []⟩

/-- The header row of a dataset (always skipped; its fields are never
read as data). -/
def headerRow : Row := ⟨"radio", none, none, none, none, none, none, none, none⟩

/-- The round-trip row of the specification: radio `GSM`, mcc 250,
mnc 2, lac 7743, cell 22517, lon 37.6, lat 55.7, range 50,
samples 10. -/
def goodRow : Row :=
  ⟨"GSM", some 250, some 2, some 7743, some 22517,
    some 37.6, some 55.7, some 50, some 10⟩

/-- A row whose samples field fails to parse, so the row is skipped. -/
def badRow : Row :=
  ⟨"GSM", some 250, some 2, some 7743, some 22517,
    some 37.6, some 55.7, some 50, none⟩

/-- The default import options: radio filter `gsm`, country filter
250, no minimum sample count. -/
def defaultOpts : ImportOpts := ⟨["gsm"], [250], 0⟩

/-- The arithmetic mean of the matched records' longitudes, as `Get`
computes it (a division by the record count without a zero guard). -/
noncomputable def meanLon (cells : List Data) : ℝ :=
  (cells.map (fun c => c.Location.lon)).sum / (cells.length : ℝ)

/-- The arithmetic mean of the matched records' latitudes, as `Get`
computes it (a division by the record count without a zero guard). -/
noncomputable def meanLat (cells : List Data) : ℝ :=
  (cells.map (fun c => c.Location.lat)).sum / (cells.length : ℝ)

/-- The accuracy radius as the specification words it, for comparison
with the code's loop: the maximum, over all matched records, of the
haversine great-circle distance between that record's point and the
mean point plus that record's own stored accuracy radius (and 0 for an
empty match set). -/
noncomputable def specAccuracy (lon lat : ℝ) : List Data → ℝ
  | [] => 0
  | c :: cs => (cs.map (distPlus lon lat)).foldl max (distPlus lon lat c)

/-! ## Helper lemmas about the accuracy computation -/

/-- The body of the accuracy loop keeps the larger of the running
accuracy and the current distance. -/
lemma step_eq_max (a d : ℝ) : (if d > a then d else a) = max a d := by
  rcases le_or_lt d a with h | h
  · rw [if_neg (not_lt.mpr h), max_eq_left h]
  · rw [if_pos h, max_eq_right h.le]

/-- The accuracy loop is a fold of `max` over the per-record
distances. -/
lemma accuracyLoop_eq_foldl (lon lat : ℝ) (cells : List Data) (acc : ℝ) :
    accuracyLoop lon lat cells acc =
      (cells.map (distPlus lon lat)).foldl max acc := by
  induction cells generalizing acc with
  | nil => simp [accuracyLoop]
  | cons c cs ih =>
    simp only [accuracyLoop, List.map_cons, List.foldl_cons]
    rw [ih, step_eq_max]

/-- A `max`-fold's result dominates its initial value. -/
lemma foldl_max_le_init (l : List ℝ) (a : ℝ) : a ≤ l.foldl max a := by
  induction l generalizing a with
  | nil => simp
  | cons x xs ih => exact le_trans (le_max_left a x) (ih _)

/-- A `max`-fold's result dominates every list element. -/
lemma le_foldl_max_of_mem {x : ℝ} {l : List ℝ} (hx : x ∈ l) (a : ℝ) :
    x ≤ l.foldl max a := by
  induction l generalizing a with
  | nil => cases hx
  | cons y ys ih =>
    rcases List.mem_cons.mp hx with rfl | h
    · exact le_trans (le_max_right a x) (foldl_max_le_init ys _)
    · exact ih h _

/-- The distance term of `distPlus` is non-negative, so `distPlus`
dominates the record's own accuracy. -/
lemma accuracy_le_distPlus (lon lat : ℝ) (cell : Data) :
    cell.Accuracy ≤ distPlus lon lat cell := by
  have key : ∀ x : ℝ, 0 ≤ x →
      cell.Accuracy ≤ 2 * EARTH_RADIUS * Real.arcsin (min 1 x) + cell.Accuracy := by
    intro x hx
    have h1 : 0 ≤ Real.arcsin (min 1 x) :=
      Real.arcsin_nonneg.mpr (le_min zero_le_one hx)
    have h2 : (0:ℝ) ≤ 2 * EARTH_RADIUS := by norm_num [EARTH_RADIUS]
    nlinarith
  exact key _ (Real.sqrt_nonneg _)

/-- The haversine distance from a record to its own point is zero, so
`distPlus` there is exactly the record's accuracy. -/
lemma distPlus_at_self (cell : Data) :
    distPlus cell.Location.lon cell.Location.lat cell = cell.Accuracy := by
  unfold distPlus
  norm_num [Real.sin_zero, Real.sqrt_zero, Real.arcsin_zero]

/-- `Get` on a single matched record of non-negative accuracy returns
that record's point and accuracy exactly. -/
lemma get_single (db : Store) (req : Request) (d : Data) (n : Nat)
    (h : GetCells db req = (.ok [d], n)) (hge : 0 ≤ d.Accuracy) :
    Get db req =
      (.ok { Lat := d.Location.lat, Lng := d.Location.lon, Accuracy := d.Accuracy }, n) := by
  have acc1 : accuracyLoop d.Location.lon d.Location.lat [d] 0 = d.Accuracy := by
    rw [accuracyLoop_eq_foldl]
    simp only [List.map_cons, List.map_nil, List.foldl_cons, List.foldl_nil]
    rw [distPlus_at_self, max_eq_right hge]
  simp [Get, h, acc1]

/-! ## Resolution engine: error handling -/

/-- Claim C1: a geolocation request that names zero observed towers (of
any kind) makes both `GetCells` and `Get` fail with the empty-request
error, with zero store queries performed. -/
theorem getCells_get_empty_request (db : Store) (req : Request)
    (hc : req.CellTowers = []) (hw : req.WifiAccessPoints = []) :
    GetCells db req = (.error .emptyRequest, 0) ∧
    Get db req = (.error .emptyRequest, 0) := by
  have h1 : GetCells db req = (.error .emptyRequest, 0) := by
    simp [GetCells, hc, hw]
  exact ⟨h1, by simp [Get, h1]⟩

/-- Witness for C1: the concrete empty request against the concrete
empty store. -/
theorem getCells_get_empty_request_witness :
    emptyReq.CellTowers = [] ∧ emptyReq.WifiAccessPoints = [] ∧
    (GetCells emptyStore emptyReq = (.error .emptyRequest, 0) ∧
      Get emptyStore emptyReq = (.error .emptyRequest, 0)) :=
  ⟨rfl, rfl, getCells_get_empty_request emptyStore emptyReq rfl rfl⟩

/-- Claim C4: on a request whose cell-tower list is empty but whose
wifi list is not, with home mobile country code `0`, `GetCells` passes
the empty-request guard and the fallback read of `CellTowers[0]` is an
out-of-bounds access (a Go runtime panic, modelled as the
`indexOutOfRange` outcome), before any store query. -/
theorem getCells_wifi_only_index_panic :
    GetCells emptyStore wifiOnlyReq = (.error .indexOutOfRange, 0) := rfl

/-- Claim C3: when `GetCells` succeeds with zero matched records, `Get`
does not return an error (in particular not `notFound`): the mean point
is the 0/0 division by the zero match count and the accuracy is 0. -/
theorem get_zero_matches (db : Store) (req : Request) (n : Nat)
    (h : GetCells db req = (.ok [], n)) :
    Get db req = (.ok { Lat := 0 / 0, Lng := 0 / 0, Accuracy := 0 }, n) ∧
    (Get db req).1 ≠ .error .notFound := by
  have h1 : Get db req = (.ok { Lat := 0 / 0, Lng := 0 / 0, Accuracy := 0 }, n) := by
    simp [Get, h, accuracyLoop]
  exact ⟨h1, by rw [h1]; simp⟩

/-- Witness for C3: a one-tower request against the empty store matches
zero records, and `Get` returns the degenerate point with accuracy 0. -/
theorem get_zero_matches_witness :
    GetCells emptyStore oneTowerReq = (.ok [], 1) ∧
    (Get emptyStore oneTowerReq =
        (.ok { Lat := 0 / 0, Lng := 0 / 0, Accuracy := 0 }, 1) ∧
      (Get emptyStore oneTowerReq).1 ≠ .error .notFound) :=
  ⟨rfl, get_zero_matches emptyStore oneTowerReq 1 rfl⟩

/-- Counterexample to claim C10 as stated: on a store whose count query
fails, `Records` does not propagate the failure — it discards the error
(`total, _ := coll.Count()`) and returns the zero value 0. -/
theorem records_swallows_store_error :
    failingStore.count = .error "connection reset" ∧
    Records failingStore = 0 :=
  ⟨rfl, rfl⟩

/-- Claim C10 (amended): a store failure is propagated unmodified by
`GetCells` and by `Get` (here on any request whose cell-tower list is
non-empty, so that the query is reached), while `Records` discards the
count error and returns 0. -/
theorem store_error_propagation (db : Store) (req : Request) (e : String)
    (t : CellTower) (ts : List CellTower)
    (hf : db.failure = some e) (hc : req.CellTowers = t :: ts) :
    GetCells db req = (.error (.storeError e), 1) ∧
    Get db req = (.error (.storeError e), 1) ∧
    Records db = 0 := by
  have hfind : ∀ p, db.find p = .error e := fun p => by
    simp [Store.find, hf]
  have h1 : GetCells db req = (.error (.storeError e), 1) := by
    unfold GetCells
    rw [hc]
    have e1 : (if req.HomeMobileCountryCode == 0 then
          ((t :: ts).head?).map (fun t => t.MobileCountryCode)
        else some req.HomeMobileCountryCode)
        = some (if req.HomeMobileCountryCode == 0 then t.MobileCountryCode
          else req.HomeMobileCountryCode) := by
      by_cases hm : req.HomeMobileCountryCode == 0 <;> simp [hm]
    have e2 : (if req.HomeMobileNetworkCode == 0 then
          ((t :: ts).head?).map (fun t => t.MobileNetworkCode)
        else some req.HomeMobileNetworkCode)
        = some (if req.HomeMobileNetworkCode == 0 then t.MobileNetworkCode
          else req.HomeMobileNetworkCode) := by
      by_cases hm : req.HomeMobileNetworkCode == 0 <;> simp [hm]
    rw [e1, e2]
    simp [hfind]
  refine ⟨h1, by simp [Get, h1], ?_⟩
  simp [Records, Store.count, hf]

/-- Witness for C10 (amended): the concrete failing store with a
concrete one-tower request. -/
theorem store_error_propagation_witness :
    failingStore.failure = some "connection reset" ∧
    oneTowerReq.CellTowers = [⟨250, 2, 7743, 22517, -78⟩] ∧
    (GetCells failingStore oneTowerReq =
        (.error (.storeError "connection reset"), 1) ∧
      Get failingStore oneTowerReq =
        (.error (.storeError "connection reset"), 1) ∧
      Records failingStore = 0) :=
  ⟨rfl, rfl, store_error_propagation failingStore oneTowerReq
    "connection reset" ⟨250, 2, 7743, 22517, -78⟩ [] rfl rfl⟩

/-! ## Resolution engine: the averaging algorithm -/

/-- On a successful non-empty lookup, `Get` returns the mean point and
the accuracy loop's result (the shape shared by the averaging
claims). -/
lemma get_ok (db : Store) (req : Request) (cells : List Data) (n : Nat)
    (h : GetCells db req = (.ok cells, n)) :
    Get db req =
      (.ok { Lat := meanLat cells, Lng := meanLon cells,
             Accuracy := accuracyLoop (meanLon cells) (meanLat cells) cells 0 }, n) := by
  simp [Get, h, meanLon, meanLat]

/-- Claim C8: when the towers of a request match exactly one stored
record (of non-negative accuracy), `Get`'s estimated point equals that
record's point exactly and the returned accuracy radius equals that
record's stored accuracy radius. -/
theorem get_single_match (db : Store) (req : Request) (d : Data) (n : Nat)
    (h : GetCells db req = (.ok [d], n)) (hge : 0 ≤ d.Accuracy) :
    Get db req =
      (.ok { Lat := d.Location.lat, Lng := d.Location.lon, Accuracy := d.Accuracy }, n) :=
  get_single db req d n h hge

/-- Witness for C8: the round-trip request against the round-trip
store matches exactly the round-trip record, and `Get` returns its
point (37.6, 55.7) with accuracy 50. -/
theorem get_single_match_witness :
    GetCells rtStore rtReq = (.ok [rtData], 1) ∧ (0:ℝ) ≤ rtData.Accuracy ∧
    Get rtStore rtReq =
      (.ok { Lat := rtData.Location.lat, Lng := rtData.Location.lon,
             Accuracy := rtData.Accuracy }, 1) :=
  ⟨rfl, by norm_num [rtData],
    get_single_match rtStore rtReq rtData 1 rfl (by norm_num [rtData])⟩

/-- Claim C2: on a successful non-empty match set (of records with
non-negative stored accuracy), the returned accuracy radius equals the
specification's formula: the maximum over all matched records of the
haversine distance to the mean point plus that record's own stored
accuracy radius. -/
theorem get_accuracy_eq_spec (db : Store) (req : Request) (cells : List Data)
    (n : Nat) (h : GetCells db req = (.ok cells, n)) (hne : cells ≠ [])
    (hacc : ∀ c ∈ cells, 0 ≤ c.Accuracy) :
    ∃ resp, Get db req = (.ok resp, n) ∧
      resp.Lng = meanLon cells ∧ resp.Lat = meanLat cells ∧
      resp.Accuracy = specAccuracy (meanLon cells) (meanLat cells) cells := by
  obtain ⟨c0, cs, rfl⟩ := List.exists_cons_of_ne_nil hne
  refine ⟨_, get_ok db req (c0 :: cs) n h, rfl, rfl, ?_⟩
  rw [accuracyLoop_eq_foldl]
  simp only [List.map_cons, List.foldl_cons, specAccuracy]
  congr 1
  have h0 : 0 ≤ distPlus (meanLon (c0 :: cs)) (meanLat (c0 :: cs)) c0 :=
    le_trans (hacc c0 (List.mem_cons_self _ _)) (accuracy_le_distPlus _ _ _)
  exact max_eq_right h0

/-- Witness for C2: the round-trip single-record setup. -/
theorem get_accuracy_eq_spec_witness :
    GetCells rtStore rtReq = (.ok [rtData], 1) ∧ ([rtData] ≠ []) ∧
    (∀ c ∈ [rtData], 0 ≤ c.Accuracy) ∧
    (∃ resp, Get rtStore rtReq = (.ok resp, 1) ∧
      resp.Lng = meanLon [rtData] ∧ resp.Lat = meanLat [rtData] ∧
      resp.Accuracy = specAccuracy (meanLon [rtData]) (meanLat [rtData]) [rtData]) :=
  ⟨rfl, by simp, by simp [rtData],
    get_accuracy_eq_spec rtStore rtReq [rtData] 1 rfl (by simp)
      (by simp [rtData])⟩

/-- Claim C9: on a successful non-empty match set of records with
non-negative stored accuracy, the returned accuracy radius dominates
every matched record's own accuracy field. -/
theorem get_accuracy_dominates (db : Store) (req : Request) (cells : List Data)
    (n : Nat) (h : GetCells db req = (.ok cells, n)) (_hne : cells ≠ [])
    (_hacc : ∀ c ∈ cells, 0 ≤ c.Accuracy) :
    ∃ resp, Get db req = (.ok resp, n) ∧
      ∀ c ∈ cells, c.Accuracy ≤ resp.Accuracy := by
  refine ⟨_, get_ok db req cells n h, fun c hc => ?_⟩
  calc c.Accuracy ≤ distPlus (meanLon cells) (meanLat cells) c :=
        accuracy_le_distPlus _ _ _
    _ ≤ (cells.map (distPlus (meanLon cells) (meanLat cells))).foldl max 0 :=
        le_foldl_max_of_mem (List.mem_map_of_mem _ hc) 0
    _ = accuracyLoop (meanLon cells) (meanLat cells) cells 0 :=
        (accuracyLoop_eq_foldl _ _ _ _).symm

/-- Witness for C9: the round-trip single-record setup; the returned
accuracy 50 dominates the record's accuracy 50. -/
theorem get_accuracy_dominates_witness :
    GetCells rtStore rtReq = (.ok [rtData], 1) ∧ ([rtData] ≠ []) ∧
    (∀ c ∈ [rtData], 0 ≤ c.Accuracy) ∧
    (∃ resp, Get rtStore rtReq = (.ok resp, 1) ∧
      ∀ c ∈ [rtData], c.Accuracy ≤ resp.Accuracy) :=
  ⟨rfl, by simp, by simp [rtData],
    get_accuracy_dominates rtStore rtReq [rtData] 1 rfl (by simp)
      (by simp [rtData])⟩

/-! ## Resolution engine: order of the observed towers -/

/-- `List.any` is invariant under permutation of the list. -/
lemma any_congr_of_perm {α : Type} {l1 l2 : List α} (h : l1.Perm l2)
    (p : α → Bool) : l1.any p = l2.any p := by
  cases hb : l2.any p with
  | false =>
    rw [List.any_eq_false] at hb ⊢
    exact fun x hx => hb x (h.mem_iff.mp hx)
  | true =>
    rw [List.any_eq_true] at hb ⊢
    obtain ⟨x, hx, hp⟩ := hb
    exact ⟨x, h.mem_iff.mpr hx, hp⟩

/-- `Get` depends on the request only through `GetCells`. -/
lemma get_congr (db : Store) (r1 r2 : Request)
    (h : GetCells db r1 = GetCells db r2) : Get db r1 = Get db r2 := by
  unfold Get
  rw [h]

/-- Counterexample to claim C7 as stated: with home mobile country code
`0`, the effective country code is read from the first observed tower,
so swapping the two towers of `permReq1` changes which stored record
matches and hence the resolved point. -/
theorem get_perm_counterexample :
    permReq1.CellTowers.Perm permReq2.CellTowers ∧
    Get permStore permReq2 ≠ Get permStore permReq1 := by
  refine ⟨List.Perm.swap towerB towerA [], ?_⟩
  have h1 : Get permStore permReq1 =
      (.ok { Lat := dataA.Location.lat, Lng := dataA.Location.lon,
             Accuracy := dataA.Accuracy }, 1) :=
    get_single permStore permReq1 dataA 1 rfl (by norm_num [dataA])
  have h2 : Get permStore permReq2 =
      (.ok { Lat := dataB.Location.lat, Lng := dataB.Location.lon,
             Accuracy := dataB.Accuracy }, 1) :=
    get_single permStore permReq2 dataB 1 rfl (by norm_num [dataB])
  rw [h1, h2]
  intro h
  simp only [Prod.mk.injEq, Except.ok.injEq, Response.mk.injEq,
    dataA, dataB] at h
  norm_num at h

/-- Claim C7 (amended): provided the request's home mobile country and
network codes are both non-zero (so that neither falls back to the
first observed tower), permuting the observed towers changes neither
the resolved point nor the accuracy returned by `Get`. -/
theorem get_perm_invariant (db : Store) (req : Request)
    (towers2 : List CellTower)
    (hmcc : req.HomeMobileCountryCode ≠ 0)
    (hmnc : req.HomeMobileNetworkCode ≠ 0)
    (hperm : req.CellTowers.Perm towers2) :
    Get db { req with CellTowers := towers2 } = Get db req := by
  apply get_congr
  cases req with
  | mk radioF hm hn towers1 wifi =>
    have hmcc' : (hm == 0) = false := by simpa using hmcc
    have hmnc' : (hn == 0) = false := by simpa using hmnc
    have hperm' : towers1.Perm towers2 := hperm
    have hpred : ∀ radio mcc mnc,
        matchPred radio mcc mnc towers2 = matchPred radio mcc mnc towers1 := by
      intro radio mcc mnc
      funext k
      unfold matchPred
      rw [any_congr_of_perm hperm']
    unfold GetCells
    simp only [hmcc', hmnc', hpred, hperm'.length_eq, Bool.false_eq_true,
      if_false]

/-- Witness for C7 (amended): swapping the towers of the concrete
request with explicit home codes leaves `Get`'s result unchanged. -/
theorem get_perm_invariant_witness :
    permReq3.HomeMobileCountryCode ≠ 0 ∧
    permReq3.HomeMobileNetworkCode ≠ 0 ∧
    permReq3.CellTowers.Perm [towerB, towerA] ∧
    Get permStore { permReq3 with CellTowers := [towerB, towerA] } =
      Get permStore permReq3 :=
  ⟨by decide, by decide, List.Perm.swap towerB towerA [],
    get_perm_invariant permStore permReq3 [towerB, towerA]
      (by decide) (by decide) (List.Perm.swap towerB towerA [])⟩

/-! ## Ingestion pipeline: purge and frame properties -/

/-- Every element of `upsert s k d` is an element of `s` or is the
upserted pair itself. -/
lemma mem_upsert {s : List (Key × Data)} {k : Key} {d : Data}
    {x : Key × Data} (hx : x ∈ upsert s k d) : x ∈ s ∨ x = (k, d) := by
  unfold upsert at hx
  by_cases h : s.any (fun kd => kd.1 == k)
  · rw [if_pos h] at hx
    obtain ⟨y, hy, hxy⟩ := List.mem_map.mp hx
    by_cases hk : (y.1 == k) = true
    · right
      rw [if_pos hk] at hxy
      have : y.1 = k := by simpa using hk
      rw [← hxy, this]
    · left
      rw [if_neg hk] at hxy
      rw [← hxy]
      exact hy
  · rw [if_neg h] at hx
    rcases List.mem_append.mp hx with h1 | h1
    · left; exact h1
    · right; simpa using h1

/-- Every element of `applyUpserts s ops` is an element of `s` or of
`ops`. -/
lemma mem_applyUpserts {ops : List (Key × Data)} {s : List (Key × Data)}
    {x : Key × Data} (hx : x ∈ applyUpserts s ops) : x ∈ s ∨ x ∈ ops := by
  induction ops generalizing s with
  | nil =>
    left
    simpa [applyUpserts] using hx
  | cons op ops ih =>
    have hx' : x ∈ applyUpserts (upsert s op.1 op.2) ops := hx
    rcases ih hx' with h | h
    · rcases mem_upsert h with h' | h'
      · left; exact h'
      · right
        rw [h']
        exact List.mem_cons_self _ _
    · right
      exact List.mem_cons_of_mem _ h

/-- Claim C5: a non-incremental (full-mode) run that accepts at least
one row first removes all existing documents and then applies the
staged upserts, so the final store holds only records staged from the
dataset; a run that accepts zero rows leaves the store unchanged. -/
theorem runImport_full_mode (opts : ImportOpts) (filename : String)
    (rows : List Row) (store : List (Key × Data))
    (hfull : containsDiff filename = false) :
    (stagedOps opts rows ≠ [] →
      runImport opts filename rows store =
        (applyUpserts [] (stagedOps opts rows),
          [.removeAll, .bulkRun (stagedOps opts rows)]) ∧
      ∀ kd ∈ (runImport opts filename rows store).1,
        kd ∈ stagedOps opts rows) ∧
    (stagedOps opts rows = [] →
      runImport opts filename rows store = (store, [])) := by
  constructor
  · intro hne
    have hcond : ((stagedOps opts rows).length == 0) = false := by
      simp only [beq_eq_false_iff_ne, ne_eq, List.length_eq_zero]
      exact hne
    have hrun : runImport opts filename rows store =
        (applyUpserts [] (stagedOps opts rows),
          [.removeAll, .bulkRun (stagedOps opts rows)]) := by
      simp [runImport, hcond, hfull]
    refine ⟨hrun, fun kd hkd => ?_⟩
    rw [hrun] at hkd
    rcases mem_applyUpserts hkd with h | h
    · cases h
    · exact h
  · intro hz
    simp [runImport, hz]

/-- Witness for C5: importing the round-trip row in full mode over a
store holding an old record yields exactly the staged record. -/
theorem runImport_full_mode_witness :
    containsDiff "towers.csv" = false ∧
    ((stagedOps defaultOpts [headerRow, goodRow] ≠ [] →
      runImport defaultOpts "towers.csv" [headerRow, goodRow] [(keyB, dataB)] =
        (applyUpserts [] (stagedOps defaultOpts [headerRow, goodRow]),
          [.removeAll, .bulkRun (stagedOps defaultOpts [headerRow, goodRow])]) ∧
      ∀ kd ∈ (runImport defaultOpts "towers.csv" [headerRow, goodRow]
          [(keyB, dataB)]).1,
        kd ∈ stagedOps defaultOpts [headerRow, goodRow]) ∧
    (stagedOps defaultOpts [headerRow, goodRow] = [] →
      runImport defaultOpts "towers.csv" [headerRow, goodRow] [(keyB, dataB)] =
        ([(keyB, dataB)], []))) :=
  ⟨by decide,
    runImport_full_mode defaultOpts "towers.csv" [headerRow, goodRow]
      [(keyB, dataB)] (by decide)⟩

/-- Claim C6: a run in which zero rows are accepted performs no store
mutation at all — neither the full-mode delete nor any upsert — so
prior data is preserved, in every mode. -/
theorem runImport_zero_accepted (opts : ImportOpts) (filename : String)
    (rows : List Row) (store : List (Key × Data))
    (hzero : stagedOps opts rows = []) :
    runImport opts filename rows store = (store, []) := by
  simp [runImport, hzero]

/-- Witness for C6: a dataset whose only data row is unparsable leaves
the prior store untouched and executes no mutation. -/
theorem runImport_zero_accepted_witness :
    stagedOps defaultOpts [headerRow, badRow] = [] ∧
    runImport defaultOpts "towers.csv" [headerRow, badRow] [(keyB, dataB)] =
      ([(keyB, dataB)], []) :=
  ⟨rfl, runImport_zero_accepted defaultOpts "towers.csv" [headerRow, badRow]
    [(keyB, dataB)] rfl⟩

end Lbs
